import Mathlib

/-!
# Verification of the `kodo` storage-client wrapper

A shallow embedding of the `kodo` Go package (a thin client facade over an
object-storage SDK) together with proofs about its behaviour.

Modelling conventions:

* Go's variadic `args ...interface{}` lists are embedded as `List GoArg`,
  where `GoArg` enumerates the runtime types the package ever asserts
  (`string`, `map[string]string`, `int`, `bool`).  A failed type assertion
  (a Go panic) is modelled as an error/`none` outcome.
* Go's `map[string]string` is embedded as an association list `StrMap`.
  Go maps are reference values: an assignment `m[k] = v` mutates the
  caller-visible object.  `Writer` therefore reports, alongside the value
  handed to the uploader, the post-call contents of the caller-supplied map
  (`callerMapAfter`), modelling that in-place mutation explicitly.
* Network calls performed by the delegate SDK managers (form uploader,
  bucket manager) are modelled as explicit parameters: `Writer` *returns*
  the upload request it would issue instead of issuing it, and `KeyList`
  takes the backend's page function as an argument, with a fuel bound for
  the otherwise unbounded `for` loop (`none` = the modelled horizon was
  exceeded or a type assertion panicked).
-/

set_option autoImplicit false

namespace Kodo

/-- Go `map[string]string`, as an association list. -/
def StrMap : Type := List (String × String)

instance : DecidableEq StrMap := by
  unfold StrMap
  infer_instance

/-- Go map assignment `m[k] = v`: replace the binding of `k` if present,
otherwise add it. -/
def mapInsert : StrMap → String → String → StrMap
  | [], k, v => [(k, v)]
  | (k', v') :: rest, k, v =>
    if k' = k then (k, v) :: rest else (k', v') :: mapInsert rest k v

/-- Go map read `m[k]` (with presence information). -/
def mapLookup : StrMap → String → Option String
  | [], _ => none
  | (k', v') :: rest, k => if k' = k then some v' else mapLookup rest k

/-- A value in a Go `...interface{}` variadic list, restricted to the
runtime types this package ever asserts. -/
inductive GoArg where
  | str (s : String)
  | strMap (m : StrMap)
  | int (i : Int)
  | boolv (b : Bool)
  deriving DecidableEq

/-- The type assertion `a.(string)`; `none` models the panic on mismatch. -/
def asString : GoArg → Option String
  | .str s => some s
  | _ => none

/-- The type assertion `a.(map[string]string)`. -/
def asStrMap : GoArg → Option StrMap
  | .strMap m => some m
  | _ => none

/-- The type assertion `a.(int)`. -/
def asInt : GoArg → Option Int
  | .int i => some i
  | _ => none

/-- `defaultRetBody` constant (part_000 line 17). -/
def defaultRetBody : String :=
  "\x7b\"key\":\"$(key)\",\"hash\":\"$(etag)\",\"fsize\":\"$(fsize)\",\"bucket\":\"$(bucket)\",\"name\":\"$(x:name)\"\x7d"

/-- The fields of `storage.PutPolicy` that `Writer` populates
(part_000 lines 176–183). -/
structure PutPolicy where
  scope : String
  callbackURL : String
  returnBody : String
  persistentOps : String
  callbackBody : String
  persistentPipeline : String
  deriving DecidableEq

/-- The upload request `Writer` hands to `client.uploader.Put`
(part_000 lines 186–194): the signed policy, destination key, declared
size, and the `storage.PutExtra` parameter map. -/
structure UploadCall where
  policy : PutPolicy
  path : String
  fSize : Int
  extraParams : StrMap
  deriving DecidableEq

/-- Outcome of a `Writer` call that reaches the uploader.  `callerMapAfter`
is `some m` when the caller supplied an extra-parameter map at `args[2]`
(cases 3–5 of the switch): Go maps are references, so the
`extraParams["x:name"] = path` write at line 174 mutates the caller's map
in place, and `m` is its caller-visible contents after the call. -/
structure WriterOk where
  upload : UploadCall
  callerMapAfter : Option StrMap
  deriving DecidableEq

/-- How a `Writer` call can fail before reaching the uploader:
`ErrMissFops` (line 22, returned with a nil `*State` at line 158), or a
panicking type assertion on a variadic argument. -/
inductive WriterErr where
  | missFops
  | typeAssertPanic
  deriving DecidableEq

/-- The optional-argument values accumulated by the `switch len(args)`
of `Writer` (part_000 lines 156–172).  `fromCaller` records whether
`extraParams` is the caller's own map object (cases 3–5) rather than the
fresh empty map allocated at line 146. -/
structure WriterParams where
  cbURL : String
  retBody : String
  cbBody : String
  extraParams : StrMap
  fromCaller : Bool
  pipName : String
  fops : String
  deriving DecidableEq

/-- The `switch len(args)` of `Writer`, unrolled per arity.  Go's
`fallthrough` makes case `k` perform its own assignment and then those of
every lower case, in source order (cbURL, then retBody/cbBody, then
extraParams, then pipName/fops); lengths 0 and ≥ 6 match no case and keep
every default.  Length 1 is handled before this function is consulted. -/
def writerParams : List GoArg → Option WriterParams
  | [a0, a1] =>
      match asString a0, asString a1 with
      | some pipName, some fops =>
          some { cbURL := "", retBody := defaultRetBody, cbBody := "",
                 extraParams := [], fromCaller := false,
                 pipName := pipName, fops := fops }
      | _, _ => none
  | [a0, a1, a2] =>
      match asStrMap a2, asString a0, asString a1 with
      | some extraParams, some pipName, some fops =>
          some { cbURL := "", retBody := defaultRetBody, cbBody := "",
                 extraParams := extraParams, fromCaller := true,
                 pipName := pipName, fops := fops }
      | _, _, _ => none
  | [a0, a1, a2, a3] =>
      match asString a3, asStrMap a2, asString a0, asString a1 with
      | some retBody, some extraParams, some pipName, some fops =>
          some { cbURL := "", retBody := retBody, cbBody := retBody,
                 extraParams := extraParams, fromCaller := true,
                 pipName := pipName, fops := fops }
      | _, _, _, _ => none
  | [a0, a1, a2, a3, a4] =>
      match asString a4, asString a3, asStrMap a2, asString a0, asString a1 with
      | some cbURL, some retBody, some extraParams, some pipName, some fops =>
          some { cbURL := cbURL, retBody := retBody, cbBody := retBody,
                 extraParams := extraParams, fromCaller := true,
                 pipName := pipName, fops := fops }
      | _, _, _, _, _ => none
  | _ =>
      some { cbURL := "", retBody := defaultRetBody, cbBody := "",
             extraParams := [], fromCaller := false,
             pipName := "", fops := "" }

/-- The tail of `Writer` after the switch (part_000 lines 174–195): the
`extraParams["x:name"] = path` write, the `storage.PutPolicy` literal
(field for field, lines 176–183), and the argument record of the
`uploader.Put` call.  `callerMapAfter` reports the caller-visible
contents of the caller's own map after the in-place write, when the map
came from `args[2]`. -/
def assembleWriter (scope path : String) (fSize : Int) (p : WriterParams) :
    WriterOk :=
  let extraParams := mapInsert p.extraParams "x:name" path
  { upload := {
      policy := {
        scope := scope
        callbackURL := p.cbURL
        returnBody := p.retBody
        persistentOps := p.fops
        callbackBody := p.cbBody
        persistentPipeline := p.pipName }
      path := path
      fSize := fSize
      extraParams := extraParams }
    callerMapAfter := if p.fromCaller then some extraParams else none }

/-- `Client.Writer` (part_000 lines 141–196).  Instead of performing the
upload it returns the `UploadCall` it would hand to
`client.uploader.Put`; `.error .missFops` is the `return nil, ErrMissFops`
of line 158 (no uploader invocation, nil `*State`). -/
def Writer (bucket path : String) (fSize : Int) (overWriter : Bool)
    (args : List GoArg) : Except WriterErr WriterOk :=
  let scope := if overWriter then bucket ++ ":" ++ path else bucket
  if args.length = 1 then
    .error .missFops
  else
    match writerParams args with
    | none => .error .typeAssertPanic
    | some p => .ok (assembleWriter scope path fSize p)

/-- `Client.Push` (part_000 lines 199–201): wraps the byte slice in a
reader and delegates to `Writer` with `int64(len(data))`. -/
def Push (bucket path : String) (data : List Nat) (overWriter : Bool)
    (args : List GoArg) : Except WriterErr WriterOk :=
  Writer bucket path (Int.ofNat data.length) overWriter args

/-! ## Key listing (`KeyList`, part_000 lines 224–267) -/

/-- One successful page from `bktManager.ListFiles`: the listed entries'
keys, the next-page marker, and the has-next flag (the `items`,
`nextMarker`, `hashNext` results; the `commonPrefixes` result is
discarded by `KeyList`). -/
structure ListPage where
  items : List String
  nextMarker : String
  hasNext : Bool
  deriving DecidableEq

/-- Outcome of one `ListFiles` backend call: a page, or an error. -/
inductive ListResp where
  | page (p : ListPage)
  | fail
  deriving DecidableEq

/-- A backend for `ListFiles`, as a function of the arguments `KeyList`
varies: delimiter, marker, and page-size limit (bucket and key prefix are
fixed per client/call and absorbed into the function). -/
def ListBackend : Type := String → String → Int → ListResp

/-- The inner `for _, item := range items` of `KeyList` (lines 252–257):
append each key, and after each append test `len(keys) >= n`.  Returns
the grown accumulator and whether the `return keys, nextMarker` of
line 255 fired. -/
def appendKeys : List String → List String → Int → List String × Bool
  | keys, [], _ => (keys, false)
  | keys, k :: rest, n =>
    let keys' := keys ++ [k]
    if (keys'.length : Int) ≥ n then (keys', true)
    else appendKeys keys' rest n

/-- The `for { ... }` loop of `KeyList` (lines 246–266), one backend call
per iteration.  On a backend error it breaks and returns the accumulated
keys with the marker used for the failed request (lines 248–250 and 266);
on an early stop it returns the current page's `nextMarker` (line 255);
when `hashNext` is false it breaks and returns the marker used for the
final request (lines 259–263 and 266).  `fuel` bounds the modelled number
of iterations; `none` means the horizon was exceeded. -/
def keyListLoop (call : String → ListResp) :
    Nat → Int → String → List String → Option (List String × String)
  | 0, _, _, _ => none
  | fuel + 1, n, marker, keys =>
    match call marker with
    | .fail => some (keys, marker)
    | .page p =>
      match appendKeys keys p.items n with
      | (keys', true) => some (keys', p.nextMarker)
      | (keys', false) =>
        if p.hasNext then keyListLoop call fuel n p.nextMarker keys'
        else some (keys', marker)

/-- `math.MaxInt64` (2⁶³ − 1), the default for `KeyList`'s `n`
(line 230). -/
def maxInt64 : Int := 9223372036854775807

/-- The optional arguments of `KeyList` after the `switch len(args)`
(lines 232–244). -/
structure KeyListArgs where
  n : Int
  limit : Int
  marker : String
  delimiter : String
  deriving DecidableEq

/-- The `switch len(args)` of `KeyList`, unrolled per arity (fallthrough
from case 4 down to case 1, assignments in source order: delimiter,
marker, limit, n).  Lengths 0 and ≥ 5 match no case and keep every
default (`n = math.MaxInt64`, `limit = 1000`, empty marker and
delimiter); `none` models a panicking type assertion. -/
def keyListArgs : List GoArg → Option KeyListArgs
  | [a0] =>
      match asInt a0 with
      | some n => some { n := n, limit := 1000, marker := "", delimiter := "" }
      | none => none
  | [a0, a1] =>
      match asInt a1, asInt a0 with
      | some limit, some n =>
          some { n := n, limit := limit, marker := "", delimiter := "" }
      | _, _ => none
  | [a0, a1, a2] =>
      match asString a2, asInt a1, asInt a0 with
      | some marker, some limit, some n =>
          some { n := n, limit := limit, marker := marker, delimiter := "" }
      | _, _, _ => none
  | [a0, a1, a2, a3] =>
      match asString a3, asString a2, asInt a1, asInt a0 with
      | some delimiter, some marker, some limit, some n =>
          some { n := n, limit := limit, marker := marker, delimiter := delimiter }
      | _, _, _, _ => none
  | _ =>
      some { n := maxInt64, limit := 1000, marker := "", delimiter := "" }

/-- `Client.KeyList` (lines 224–267): parse the optional arguments, then
run the pagination loop against the given backend starting from the
parsed marker with an empty accumulator. -/
def KeyList (backend : ListBackend) (fuel : Nat) (args : List GoArg) :
    Option (List String × String) :=
  match keyListArgs args with
  | none => none
  | some a =>
      keyListLoop (fun marker => backend a.delimiter marker a.limit) fuel a.n a.marker []

/-- An honest paginating backend over a fixed key sequence.  A marker is
an opaque token denoting the offset of the first key of the requested
page; here offset `o` is encoded as the string of `o` copies of `'m'`
(so the default empty marker denotes offset 0).  Each page holds up to
`limit` keys, and `nextMarker`/`hasNext` are the following offset's
token and whether keys remain after this page (`nextMarker` empty on
the last page). -/
def honestBackend (allKeys : List String) : ListBackend :=
  fun _delimiter marker limit =>
    let off := marker.length
    let l := limit.toNat
    .page {
      items := (allKeys.drop off).take l
      nextMarker :=
        if off + l < allKeys.length then String.mk (List.replicate (off + l) 'm')
        else ""
      hasNext := decide (off + l < allKeys.length) }

/-! ## Existence check (`KeyExist`, part_000 lines 269–275) -/

/-- Error causes a `bktManager.Stat` call can report; `KeyExist` never
inspects which one occurred. -/
inductive StatErr where
  | notFound
  | transportTimeout
  | other (msg : String)
  deriving DecidableEq

/-- The metadata `Stat` returns on success (fields unused by `KeyExist`,
whose code discards the first result). -/
structure FileInfo where
  hash : String
  fsize : Int
  deriving DecidableEq

/-- `Client.KeyExist` (lines 269–275), as a function of the backend
`Stat` outcome for the key: `false` exactly when `err != nil`. -/
def KeyExist (statResult : Except StatErr FileInfo) : Bool :=
  match statResult with
  | .error _ => false
  | .ok _ => true

/-! ## Signed URLs (`URLFor` / `KeyURL`, part_000 lines 207–216) -/

/-- The credential pair held by `qbox.Mac`. -/
structure Mac where
  accessKey : String
  secretKey : String
  deriving DecidableEq

/-- The `Client` fields the modelled operations read. -/
structure Client where
  bucket : String
  domain : String
  mac : Mac
  deriving DecidableEq

/-- Modelled from the spec: `storage.MakePrivateURL` belongs to the
external SDK and is not among this repository's sources.  Per the spec
(§4.5) it is a pure computation producing a private download URL for
`key` under `domain`, signed with the client's credentials, with the
expiry `deadline` embedded in the URL. -/
def MakePrivateURL (mac : Mac) (domain key : String) (deadline : Int) : String :=
  domain ++ "/" ++ key ++ "?e=" ++ toString deadline ++ "&token=" ++ mac.accessKey

/-- `Client.URLFor` (lines 207–210): deadline is
`time.Now().Add(time.Minute * 60).Unix()`, i.e. the call time (`now`,
in Unix seconds) plus 60 · 60 seconds, under the client's own domain. -/
def URLFor (client : Client) (now : Int) (key : String) : String :=
  MakePrivateURL client.mac client.domain key (now + 60 * 60)

/-- `Client.KeyURL` (lines 213–216): like `URLFor` but under an explicit
domain. -/
def KeyURL (client : Client) (now : Int) (domain key : String) : String :=
  MakePrivateURL client.mac domain key (now + 60 * 60)

/-! ## Shared lemmas -/

/-- Reading back the key just written into a `StrMap`. -/
theorem mapLookup_mapInsert_self (m : StrMap) (k v : String) :
    mapLookup (mapInsert m k v) k = some v := by
  induction m with
  | nil => simp [mapInsert, mapLookup]
  | cons hd tl ih =>
    obtain ⟨k', v'⟩ := hd
    by_cases hk : k' = k
    · simp [mapInsert, mapLookup, hk]
    · simp [mapInsert, mapLookup, hk, ih]

/-- Inversion for a `Writer` call that reaches the uploader: the variadic
arguments parsed without error and the result record is assembled from
them. -/
theorem Writer_ok_inv {bucket path : String} {fSize : Int} {overWriter : Bool}
    {args : List GoArg} {out : WriterOk}
    (h : Writer bucket path fSize overWriter args = .ok out) :
    ∃ p, writerParams args = some p ∧
      out = assembleWriter (if overWriter then bucket ++ ":" ++ path else bucket)
        path fSize p := by
  by_cases hl : args.length = 1
  · simp [Writer, hl] at h
  · cases hp : writerParams args with
    | none => simp [Writer, hl, hp] at h
    | some p =>
      refine ⟨p, rfl, ?_⟩
      have h' := h
      simp only [Writer, hl, hp, if_false, Except.ok.injEq] at h'
      exact h'.symm

/-- Push delegates to Writer with the byte count as size. -/
theorem Push_eq_Writer (bucket path : String) (data : List Nat)
    (overWriter : Bool) (args : List GoArg) :
    Push bucket path data overWriter args =
      Writer bucket path (Int.ofNat data.length) overWriter args := rfl

/-! ## Claim theorems -/

/-- C1: a `Writer` (and hence `Push`) call with exactly one trailing
optional argument returns the missing-processing-operations error
(`ErrMissFops`, with a nil `State`): the result is `.error .missFops`,
so no `UploadCall` is ever produced and the uploader is not invoked. -/
theorem writer_one_arg_missFops (bucket path : String) (fSize : Int)
    (data : List Nat) (overWriter : Bool) (args : List GoArg)
    (h : args.length = 1) :
    Writer bucket path fSize overWriter args = .error .missFops ∧
    Push bucket path data overWriter args = .error .missFops := by
  constructor <;> simp [Writer, Push, h]

/-- Witness for C1: the concrete one-argument call fails with
`ErrMissFops` on both entry points. -/
theorem writer_one_arg_missFops_witness :
    Writer "bkt" "obj" 7 true [.str "pipe"] = .error .missFops ∧
    Push "bkt" "obj" [1, 2, 3] false [.str "pipe"] = .error .missFops :=
  ⟨(writer_one_arg_missFops "bkt" "obj" 7 [] true [.str "pipe"] rfl).1,
   (writer_one_arg_missFops "bkt" "obj" 3 [1, 2, 3] false [.str "pipe"] rfl).2⟩

/-- C8: every `Writer`/`Push` call that reaches the uploader uses the
scope `bucket:key` when the overwrite flag is set and the bare bucket
name otherwise. -/
theorem writer_scope_overwrite (bucket path : String) (fSize : Int)
    (overWriter : Bool) (args : List GoArg) (out : WriterOk)
    (h : Writer bucket path fSize overWriter args = .ok out) :
    out.upload.policy.scope =
      if overWriter then bucket ++ ":" ++ path else bucket := by
  obtain ⟨p, _, rfl⟩ := Writer_ok_inv h
  rfl

/-- Witness for C8: with the overwrite flag the scope is `bkt:obj`;
without it the scope is `bkt`. -/
theorem writer_scope_overwrite_witness :
    (∃ out, Writer "bkt" "obj" 5 true [] = .ok out ∧
      out.upload.policy.scope = "bkt:obj") ∧
    (∃ out, Writer "bkt" "obj" 5 false [] = .ok out ∧
      out.upload.policy.scope = "bkt") := by
  constructor
  · exact ⟨_, rfl, by
      have := writer_scope_overwrite "bkt" "obj" 5 true [] _ rfl
      simpa using this⟩
  · exact ⟨_, rfl, by
      have := writer_scope_overwrite "bkt" "obj" 5 false [] _ rfl
      simpa using this⟩

/-- C5: `KeyExist` returns `true` exactly when the backend `Stat` call
succeeds; every error outcome — not-found, a transport timeout, or any
other failure — collapses uniformly to `false`. -/
theorem keyExist_true_iff_stat_ok :
    (∀ r : Except StatErr FileInfo,
      KeyExist r = true ↔ ∃ info, r = .ok info) ∧
    (∀ e : StatErr, KeyExist (.error e) = false) ∧
    KeyExist (.error .notFound) = false ∧
    KeyExist (.error .transportTimeout) = false := by
  refine ⟨fun r => ?_, fun e => rfl, rfl, rfl⟩
  cases r <;> simp [KeyExist]

/-- Witness for C5: a successful stat yields `true`. -/
theorem keyExist_true_iff_stat_ok_witness :
    KeyExist (.ok { hash := "h", fsize := 1 }) = true :=
  (keyExist_true_iff_stat_ok.1 _).mpr ⟨_, rfl⟩

/-- With fewer than four variadic arguments, only the switch cases that
keep the `retBody = defaultRetBody` default (line 145) can run. -/
theorem writerParams_retBody_of_lt4 {args : List GoArg} {p : WriterParams}
    (hp : writerParams args = some p) (hlen : args.length < 4) :
    p.retBody = defaultRetBody := by
  rcases args with _ | ⟨a0, _ | ⟨a1, _ | ⟨a2, _ | ⟨a3, rest⟩⟩⟩⟩
  · injection hp with hp; subst hp; rfl
  · injection hp with hp; subst hp; rfl
  · cases a0 <;> cases a1 <;>
      first
        | (injection hp with hp; subst hp; rfl)
        | injection hp
  · cases a0 <;> cases a1 <;> cases a2 <;>
      first
        | (injection hp with hp; subst hp; rfl)
        | injection hp
  · simp only [List.length_cons] at hlen; omega

/-- C7: every `Writer`/`Push` call that supplies fewer than 4 optional
arguments and reaches the uploader carries the byte-for-byte default
callback response template as the policy's return body. -/
theorem writer_default_retBody (bucket path : String) (fSize : Int)
    (overWriter : Bool) (args : List GoArg) (out : WriterOk)
    (h : Writer bucket path fSize overWriter args = .ok out)
    (hlen : args.length < 4) :
    out.upload.policy.returnBody = defaultRetBody := by
  obtain ⟨p, hp, rfl⟩ := Writer_ok_inv h
  exact writerParams_retBody_of_lt4 hp hlen

/-- Witness for C7: an argument-free call uploads with the default
return body. -/
theorem writer_default_retBody_witness :
    ∃ out, Writer "bkt" "obj" 5 true [] = .ok out ∧
      out.upload.policy.returnBody = defaultRetBody :=
  ⟨_, rfl, writer_default_retBody "bkt" "obj" 5 true [] _ rfl (by decide)⟩

/-- C9: every `Writer`/`Push` call that reaches the uploader maps the
reserved name `x:name` to the destination key in the extra parameters it
hands to the uploader; the caller-visible map after the call (present
exactly when the caller supplied a map at `args[2]`) is that same
mutated map object, so the overwrite of any caller-supplied `x:name`
entry is visible to the caller after the call returns. -/
theorem writer_xname_injection (bucket path : String) (fSize : Int)
    (overWriter : Bool) (args : List GoArg) (out : WriterOk)
    (h : Writer bucket path fSize overWriter args = .ok out) :
    mapLookup out.upload.extraParams "x:name" = some path ∧
    (out.callerMapAfter = none ∨
      out.callerMapAfter = some out.upload.extraParams) ∧
    (∀ m, out.callerMapAfter = some m →
      mapLookup m "x:name" = some path) := by
  obtain ⟨p, hp, rfl⟩ := Writer_ok_inv h
  refine ⟨mapLookup_mapInsert_self p.extraParams "x:name" path, ?_, ?_⟩
  · by_cases hf : p.fromCaller
    · right; simp [assembleWriter, hf]
    · left; simp [assembleWriter, hf]
  · intro m hm
    by_cases hf : p.fromCaller
    · simp only [assembleWriter, hf, if_true, Option.some.injEq] at hm
      subst hm
      exact mapLookup_mapInsert_self p.extraParams "x:name" path
    · simp [assembleWriter, hf] at hm

/-- Witness for C9: a call whose caller-supplied map already binds
`x:name` (to `"old"`) ends with that binding overwritten by the
destination key, both in the uploaded parameters and in the caller's own
map. -/
theorem writer_xname_injection_witness :
    ∃ out, Writer "bkt" "obj" 4 false
        [.str "pipe", .str "fop", .strMap [("x:name", "old"), ("k", "v")]] =
          .ok out ∧
      mapLookup out.upload.extraParams "x:name" = some "obj" ∧
      out.callerMapAfter = some out.upload.extraParams :=
  ⟨_, rfl,
    (writer_xname_injection "bkt" "obj" 4 false
      [.str "pipe", .str "fop", .strMap [("x:name", "old"), ("k", "v")]] _ rfl).1,
    by decide⟩

/-- C6: `URLFor` and `KeyURL` are total functions of the client, the
clock reading and the key (no I/O, no error path in the embedding); the
produced URL starts with the requested domain, contains the key, and
embeds the expiry deadline `now + 3600` seconds (`time.Minute * 60`
after the call time). -/
theorem urlFor_domain_key_expiry (c : Client) (now : Int) (domain key : String) :
    (∃ rest, URLFor c now key = c.domain ++ "/" ++ key ++ rest) ∧
    (∃ pre post, URLFor c now key =
      pre ++ "?e=" ++ toString (now + 3600) ++ post) ∧
    (∃ rest, KeyURL c now domain key = domain ++ "/" ++ key ++ rest) ∧
    (∃ pre post, KeyURL c now domain key =
      pre ++ "?e=" ++ toString (now + 3600) ++ post) := by
  have h60 : (60 : Int) * 60 = 3600 := by norm_num
  refine
    ⟨⟨"?e=" ++ toString (now + 60 * 60) ++ "&token=" ++ c.mac.accessKey, ?_⟩,
     ⟨c.domain ++ "/" ++ key, "&token=" ++ c.mac.accessKey, ?_⟩,
     ⟨"?e=" ++ toString (now + 60 * 60) ++ "&token=" ++ c.mac.accessKey, ?_⟩,
     ⟨domain ++ "/" ++ key, "&token=" ++ c.mac.accessKey, ?_⟩⟩ <;>
    simp [URLFor, KeyURL, MakePrivateURL, String.append_assoc, h60]

/-- The twelve-key honest backend of the C2 scenario. -/
def keys12 : List String :=
  ["k01", "k02", "k03", "k04", "k05", "k06",
   "k07", "k08", "k09", "k10", "k11", "k12"]

/-- C2 counterexample: with `n = 5, limit = 2` against the honest
backend exposing 12 keys, `KeyList` does return exactly five keys and a
non-empty marker, but that marker (`"mmmmmm"`, offset 6) is the
partially-consumed page's *next-page* marker: the page it points at is
`["k07", "k08"]`, not the page holding the 6th key (`["k05", "k06"]`,
reached by the offset-4 marker), and a listing resumed from the
returned marker never yields `"k06"` — so the marker does not point at
the 6th key's page and mid-page resumption loses a key. -/
theorem keyList_n5_limit2_counterexample :
    KeyList (honestBackend keys12) 10 [.int 5, .int 2] =
      some (["k01", "k02", "k03", "k04", "k05"], "mmmmmm") ∧
    honestBackend keys12 "" "mmmm" 2 =
      .page { items := ["k05", "k06"], nextMarker := "mmmmmm", hasNext := true } ∧
    honestBackend keys12 "" "mmmmmm" 2 =
      .page { items := ["k07", "k08"], nextMarker := "mmmmmmmm", hasNext := true } ∧
    "k06" ∉ ["k07", "k08"] ∧
    KeyList (honestBackend keys12) 10 [.int maxInt64, .int 2, .str "mmmmmm"] =
      some (["k07", "k08", "k09", "k10", "k11", "k12"], "mmmmmmmmmm") ∧
    "k06" ∉ ["k07", "k08", "k09", "k10", "k11", "k12"] := by
  refine ⟨?_, ?_, ?_, ?_, ?_, ?_⟩ <;> decide

/-- Each append grows the count by one, so a page that carries the
accumulated count from below `n` to `n` or beyond makes the inner loop
fire its early return with exactly `n` keys. -/
theorem appendKeys_reaches (items : List String) :
    ∀ (keys : List String) (n : Int),
      (keys.length : Int) < n →
      (keys.length : Int) + items.length ≥ n →
      (appendKeys keys items n).2 = true ∧
      ((appendKeys keys items n).1.length : Int) = n := by
  induction items with
  | nil =>
    intro keys n hlt hge
    exfalso
    simp only [List.length_nil] at hge
    omega
  | cons k rest ih =>
    intro keys n hlt hge
    simp only [List.length_cons] at hge
    simp only [appendKeys]
    split
    · next hif =>
      simp only [List.length_append, List.length_singleton] at hif
      refine ⟨rfl, ?_⟩
      simp only [List.length_append, List.length_singleton]
      omega
    · next hif =>
      simp only [List.length_append, List.length_singleton] at hif
      exact ih (keys ++ [k]) n
        (by simp only [List.length_append, List.length_singleton]; omega)
        (by simp only [List.length_append, List.length_singleton]; omega)

/-- C2 (amended): for every `KeyList` iteration at which the supplied
maximum `n` is reached mid-page (the count was below `n` and the page
carries it to `n` or beyond), the loop stops at once — no further
backend request — and returns exactly `n` keys together with the
*current page's* next-page marker; with `n = 5, limit = 2` over 12 keys
this is five keys and the non-empty offset-6 marker, which points at
the page beginning with the 7th key (the remainder of the partially
consumed page, i.e. the 6th key, is skipped on resumption). -/
theorem keyList_maxReached_early_return :
    (∀ (call : String → ListResp) (fuel : Nat) (n : Int) (marker : String)
        (keys : List String) (p : ListPage),
      call marker = .page p →
      (keys.length : Int) < n →
      (keys.length : Int) + p.items.length ≥ n →
      keyListLoop call (fuel + 1) n marker keys =
        some ((appendKeys keys p.items n).1, p.nextMarker) ∧
      ((appendKeys keys p.items n).1.length : Int) = n) ∧
    (KeyList (honestBackend keys12) 10 [.int 5, .int 2] =
      some (["k01", "k02", "k03", "k04", "k05"], "mmmmmm") ∧
    (["k01", "k02", "k03", "k04", "k05"] : List String).length = 5 ∧
    "mmmmmm" ≠ "" ∧
    honestBackend keys12 "" "mmmmmm" 2 =
      .page { items := ["k07", "k08"], nextMarker := "mmmmmmmm", hasNext := true }) := by
  constructor
  · intro call fuel n marker keys p hc hlt hge
    obtain ⟨hstop, hlen⟩ := appendKeys_reaches p.items keys n hlt hge
    rcases hres : appendKeys keys p.items n with ⟨keys', b⟩
    rw [hres] at hstop hlen
    simp only at hstop hlen
    subst hstop
    refine ⟨?_, hlen⟩
    simp only [keyListLoop, hc, hres]
  · refine ⟨?_, ?_, ?_, ?_⟩ <;> decide

/-- Witness for C2 (amended): one key accumulated, `n = 2`, and a
two-key page: the loop returns at once with exactly two keys and that
page's next-marker. -/
theorem keyList_maxReached_early_return_witness :
    keyListLoop
      (fun _ => ListResp.page
        { items := ["a", "b"], nextMarker := "nm", hasNext := true })
      1 2 "mk" ["x"] = some (["x", "a"], "nm") :=
  (keyList_maxReached_early_return.1
    (fun _ => ListResp.page
      { items := ["a", "b"], nextMarker := "nm", hasNext := true })
    0 2 "mk" ["x"]
    { items := ["a", "b"], nextMarker := "nm", hasNext := true }
    rfl (by decide) (by decide)).1

/-- The backend of the C3 scenario: the first request delivers three
keys and next-page marker `"m1"`; every subsequent request fails. -/
def errAfter3 : ListBackend := fun _delimiter marker _limit =>
  if marker = "" then
    .page { items := ["f1", "f2", "f3"], nextMarker := "m1", hasNext := true }
  else .fail

/-- C3: when a backend page request fails, the loop stops and the call
returns the keys accumulated so far together with the marker that was
used for the failed request, with no error reported (the return type
carries none); in particular a backend erroring after returning 3 keys
yields those 3 keys and the then-active marker `"m1"`. -/
theorem keyList_error_truncates :
    (∀ (call : String → ListResp) (fuel : Nat) (n : Int) (marker : String)
        (keys : List String), call marker = .fail →
      keyListLoop call (fuel + 1) n marker keys = some (keys, marker)) ∧
    KeyList errAfter3 10 [] = some (["f1", "f2", "f3"], "m1") := by
  constructor
  · intro call fuel n marker keys hc
    simp only [keyListLoop, hc]
  · decide

/-- Witness for C3: a backend whose very next request fails returns the
accumulator and active marker unchanged. -/
theorem keyList_error_truncates_witness :
    keyListLoop (fun _ => ListResp.fail) 1 5 "mk" ["a", "b"] =
      some (["a", "b"], "mk") :=
  keyList_error_truncates.1 (fun _ => ListResp.fail) 0 5 "mk" ["a", "b"] rfl

/-- C4 counterexample: a `KeyList` run that exhausts the backend (no
error, maximum never reached) after more than one page returns the
marker that was used for the final page request — here `"2"`, not the
empty string the claim demands. -/
theorem keyList_exhaustion_marker_counterexample :
    KeyList (honestBackend ["a", "b", "c"]) 10 [.int maxInt64, .int 2] =
      some (["a", "b", "c"], "mm") ∧
    ("mm" : String) ≠ "" := by
  constructor <;> decide

/-- C4 (amended): when the backend reports no further pages (and the
requested maximum was not reached within that page), the loop breaks
and returns the marker that was *used for the final page request*: the
empty string when exhaustion happens on the very first request with the
default marker, but the previous page's next-marker — generally
non-empty — otherwise. -/
theorem keyList_exhaustion_returns_last_marker
    (call : String → ListResp) (fuel : Nat) (n : Int) (marker : String)
    (keys : List String) (p : ListPage)
    (hc : call marker = .page p)
    (hstop : (appendKeys keys p.items n).2 = false)
    (hnext : p.hasNext = false) :
    keyListLoop call (fuel + 1) n marker keys =
      some ((appendKeys keys p.items n).1, marker) := by
  rcases hres : appendKeys keys p.items n with ⟨keys', b⟩
  rw [hres] at hstop
  simp only at hstop
  subst hstop
  simp only [keyListLoop, hc, hres, hnext, Bool.false_eq_true, if_false]

/-- Witness for C4: a backend exhausted on the very first request (with
the default empty marker) yields the empty resume marker. -/
theorem keyList_exhaustion_returns_last_marker_witness :
    keyListLoop (fun m => honestBackend ["a"] "" m 1000) 1 maxInt64 "" [] =
      some (["a"], "") :=
  keyList_exhaustion_returns_last_marker
    (fun m => honestBackend ["a"] "" m 1000) 0 maxInt64 "" []
    { items := ["a"], nextMarker := "", hasNext := false }
    (by decide) (by decide) rfl

/-- C10: a `KeyList` call whose supplied maximum `n` is zero or negative
still returns a key when the backend's first page is non-empty, because
the `len(keys) >= n` check runs only after each append: the call returns
exactly the first key with that page's next-marker, never an empty
listing. -/
theorem keyList_nonpositive_n (backend : ListBackend) (fuel : Nat) (n : Int)
    (k : String) (ks : List String) (nm : String) (more : Bool)
    (hneg : n ≤ 0)
    (hb : backend "" "" 1000 =
      .page { items := k :: ks, nextMarker := nm, hasNext := more }) :
    KeyList backend (fuel + 1) [.int n] = some ([k], nm) ∧
    ∀ keys marker, KeyList backend (fuel + 1) [.int n] = some (keys, marker) →
      keys ≠ [] := by
  have ha : appendKeys [] (k :: ks) n = ([k], true) := by
    simp only [appendKeys, List.nil_append]
    split
    · rfl
    · next hcond =>
      exfalso
      apply hcond
      simp
      omega
  have h1 : KeyList backend (fuel + 1) [.int n] = some ([k], nm) := by
    simp only [KeyList, keyListArgs, asInt, keyListLoop, hb, ha]
  refine ⟨h1, ?_⟩
  intro keys marker h'
  rw [h1] at h'
  simp only [Option.some.injEq, Prod.mk.injEq] at h'
  obtain ⟨h2, _⟩ := h'
  subst h2
  simp

/-- Witness for C10: with `n = 0` against a one-key backend the call
returns that key. -/
theorem keyList_nonpositive_n_witness :
    KeyList (honestBackend ["z"]) 3 [.int 0] = some (["z"], "") ∧
    (["z"] : List String) ≠ [] :=
  ⟨(keyList_nonpositive_n (honestBackend ["z"]) 2 0 "z" [] "" false
      (by decide) (by decide)).1,
   by decide⟩

end Kodo
